import Mathlib

/-!
Shallow embedding of `generate_preview_script.js`: a CI script that lists
repositories through a paginated API, captures a screenshot of each
repository's GitHub Pages site with a headless browser, and writes the
images into an output directory.

External effects (HTTP responses, browser navigation outcomes, filesystem
errors) are modelled as explicit environment values; each embedded function
returns the observable trace of what the script does in that environment.
-/

/-! ## Configuration constants (lines 6-16 of the source) -/

def TARGET_ORG : String := "DapaLMS1"

def GITHUB_PAGES_BASE_URL : String := "https://" ++ TARGET_ORG.toLower ++ ".github.io/"

/-- `path.join(__dirname, 'previews')`; the directory name relative to the
script directory. -/
def OUTPUT_DIR : String := "previews"

def THUMBNAIL_WIDTH : Nat := 1200

def THUMBNAIL_HEIGHT : Nat := 800

def SCREENSHOT_DELAY_MS : Nat := 3000

/-! ## Repository lister (`fetchRepositoryNames`, lines 39-94) -/

/-- One record of the listing endpoint: the consumed fields are the owner
login and the repository name. -/
structure RepoRecord where
  owner : String
  name : String
deriving DecidableEq, Repr

/-- One HTTP response of the listing endpoint: its status, its JSON body
(the list of records) and its `link` header. -/
structure ApiPage where
  status : Nat
  records : List RepoRecord
  linkHeader : Option String
deriving DecidableEq, Repr

/-- `Response.ok` of the fetch API: status in the range 200-299. -/
def respOk (status : Nat) : Bool := 200 ≤ status && status < 300

def ApiPage.ok (p : ApiPage) : Bool := respOk p.status

/-- JS `String.prototype.includes`: `sub` occurs somewhere in `s`. -/
def includesSub (s sub : String) : Bool := (s.splitOn sub).length > 1

/-- `linkHeader && linkHeader.includes('rel="next"')` (line 73): a null
header is falsy, otherwise look for the next-relation marker. -/
def linkHasNext : Option String → Bool
  | none => false
  | some s => includesSub s "rel=\"next\""

/-- The filtering of one page's records (lines 76-81): keep records whose
owner login equals `TARGET_ORG`, drop the catalog repository itself, and
project to names. -/
def filterNames (data : List RepoRecord) : List String :=
  ((data.filter (fun repo => repo.owner == TARGET_ORG)).filter
      (fun repo => repo.name != "Catalog_of_Repos")).map (fun repo => repo.name)

/-- The URL requested for one page (line 55). -/
def pageUrl (page : Nat) : String :=
  "https://api.github.com/user/repos?per_page=100&page=" ++ toString page

/-- Environment of the lister: the response the endpoint gives to page
`1 + i` sits at index `i`; `none` models a network failure of that request
(`fetch` rejecting), and a request beyond the end of the list also fails at
the network level. -/
abbrev ApiEnv := List (Option ApiPage)

/-- Observable outcome of the pagination loop: the accumulated names, the
page numbers requested, and whether the catch of lines 86-89 ran and wrote
its `ERROR fetching repository list` message (line 87). -/
structure LoopResult where
  names : List String
  requests : List Nat
  errLogged : Bool
deriving DecidableEq, Repr

/-- The `while (hasNextPage)` loop of lines 53-90, recursing over the
remaining responses. A network failure or a non-ok status throws inside the
`try`; the catch at line 86 logs the ERROR message (line 87) and sets
`hasNextPage = false`: the loop stops with the names collected so far and
`errLogged` set. On an ok response the names are collected, and the loop
continues exactly when the link header has a next marker. -/
def fetchGo : ApiEnv → Nat → LoopResult
  | [], page => ⟨[], [page], true⟩
  | none :: _, page => ⟨[], [page], true⟩
  | some resp :: rest, page =>
    if resp.ok then
      if linkHasNext resp.linkHeader then
        let r := fetchGo rest (page + 1)
        ⟨filterNames resp.records ++ r.names, page :: r.requests, r.errLogged⟩
      else ⟨filterNames resp.records, [page], false⟩
    else ⟨[], [page], true⟩

/-- `if (!token)` (line 44): an unset variable and the empty string are both
falsy. -/
def tokenPresent : Option String → Bool
  | none => false
  | some t => t != ""

/-- Observable outcome of `fetchRepositoryNames`: the returned names, the
page numbers requested, whether the FATAL missing-token message (line 45)
was logged, and whether the listing ERROR message (line 87) was logged. -/
structure FetchResult where
  names : List String
  requests : List Nat
  fatalLogged : Bool
  listingErrorLogged : Bool
deriving DecidableEq, Repr

/-- `fetchRepositoryNames` (lines 39-94) in environment `env` with
credential `token`: with no usable token it logs FATAL and returns empty
without any request; otherwise it runs the pagination loop from page 1. -/
def fetchResult (token : Option String) (env : ApiEnv) : FetchResult :=
  if tokenPresent token then
    ⟨(fetchGo env 1).names, (fetchGo env 1).requests, false, (fetchGo env 1).errLogged⟩
  else ⟨[], [], true, false⟩

def fetchRepositoryNames (token : Option String) (env : ApiEnv) : List String :=
  (fetchResult token env).names

def requestedPages (token : Option String) (env : ApiEnv) : List Nat :=
  (fetchResult token env).requests

/-! ## Page capturer (`processRepository`, lines 101-155) -/

/-- Screenshot clip rectangle (lines 141-146). -/
structure Clip where
  x : Nat
  y : Nat
  width : Nat
  height : Nat
deriving DecidableEq, Repr

/-- One `page.screenshot` call: target path and clip rectangle. -/
structure ShotReq where
  path : String
  clip : Clip
deriving DecidableEq, Repr

/-- Outcome of `page.goto` (lines 117-120) in the environment: the promise
rejects (navigation error or 60s timeout), resolves with `null`, or
resolves with a response of the given HTTP status. -/
inductive GotoResult where
  | thrown
  | noResponse
  | resp (status : Nat)
deriving DecidableEq, Repr

/-- Per-repository environment: how navigation behaves, and whether the
`page.screenshot` call succeeds (a filesystem error makes it throw). -/
structure RepoEnv where
  goto : GotoResult
  screenshotOk : Bool
deriving DecidableEq, Repr

/-- Observable trace of processing: page contexts opened/closed, viewports
set, URLs navigated, fixed delays awaited, screenshot calls issued, files
written (named relative to the output directory), warnings and
per-repository error logs. -/
structure Trace where
  pagesOpened : Nat
  pagesClosed : Nat
  viewports : List (Nat × Nat)
  navs : List String
  waits : List Nat
  shots : List ShotReq
  files : List String
  warnLogs : List String
  errorLogs : List String
deriving DecidableEq, Repr

def Trace.empty : Trace := ⟨0, 0, [], [], [], [], [], [], []⟩

def Trace.append (a b : Trace) : Trace :=
  ⟨a.pagesOpened + b.pagesOpened, a.pagesClosed + b.pagesClosed,
   a.viewports ++ b.viewports, a.navs ++ b.navs, a.waits ++ b.waits,
   a.shots ++ b.shots, a.files ++ b.files, a.warnLogs ++ b.warnLogs,
   a.errorLogs ++ b.errorLogs⟩

/-- The live GitHub Pages URL (line 112): base URL, repository name, and a
trailing slash. -/
def liveUrl (repoName : String) : String := GITHUB_PAGES_BASE_URL ++ repoName ++ "/"

/-- `path.join(OUTPUT_DIR, repoName + '.png')` (line 135). -/
def outputPath (repoName : String) : String := OUTPUT_DIR ++ "/" ++ repoName ++ ".png"

/-- Trace after `newPage`, `setViewport` and the `goto` call have been
issued (lines 105-120), before the navigation outcome is known. -/
def navTrace (repoName : String) : Trace :=
  { pagesOpened := 1, pagesClosed := 0,
    viewports := [(THUMBNAIL_WIDTH, THUMBNAIL_HEIGHT)],
    navs := [liveUrl repoName],
    waits := [], shots := [], files := [], warnLogs := [], errorLogs := [] }

/-- The `try` block of `processRepository` (lines 104-151). `Except.error`
carries the trace accumulated up to the point where an exception was
thrown; note that no path through the `try` block closes the page after a
throw, so the error traces leave `pagesClosed` at 0. -/
def processBody (repoName : String) (env : RepoEnv) : Except Trace Trace :=
  let t0 := navTrace repoName
  match env.goto with
  | GotoResult.thrown => Except.error t0
  | GotoResult.noResponse =>
    Except.ok { t0 with pagesClosed := 1, warnLogs := [liveUrl repoName] }
  | GotoResult.resp status =>
    if respOk status then
      let t1 := { t0 with
        waits := [SCREENSHOT_DELAY_MS],
        shots := [⟨outputPath repoName, ⟨0, 0, THUMBNAIL_WIDTH, THUMBNAIL_HEIGHT⟩⟩] }
      if env.screenshotOk then
        Except.ok { t1 with files := [repoName ++ ".png"], pagesClosed := 1 }
      else Except.error t1
    else Except.ok { t0 with pagesClosed := 1, warnLogs := [liveUrl repoName] }

/-- `processRepository` (lines 101-155): run the `try` block; the `catch`
(lines 152-154) logs a FATAL ERROR message with the repository name and
returns normally. The `catch` block does not close the page. -/
def processRepository (repoName : String) (env : RepoEnv) : Trace :=
  match processBody repoName env with
  | Except.ok t => t
  | Except.error t => { t with errorLogs := t.errorLogs ++ [repoName] }

/-- Whether the environment makes the `try` block of `processRepository`
throw: a rejected navigation, or a screenshot failure after a successful
response. -/
def throwsDuring (env : RepoEnv) : Bool :=
  match env.goto with
  | GotoResult.thrown => true
  | GotoResult.noResponse => false
  | GotoResult.resp status => respOk status && !env.screenshotOk

/-- Whether navigation completed but post-navigation validation fails
(line 122): no response, or a non-successful status. -/
def badNav (env : RepoEnv) : Prop :=
  env.goto = GotoResult.noResponse ∨
    ∃ status, env.goto = GotoResult.resp status ∧ respOk status = false

/-! ## Directory manager and main (`removeDirectory` lines 22-33,
`main` lines 160-205) -/

/-- State of the output directory: `none` when it does not exist, `some
files` when it exists with the given file names. -/
abbrev DirState := Option (List String)

/-- How `fs.rm` behaves in the environment: success, or a failure with an
error code. -/
inductive RmResult where
  | ok
  | err (code : String)
deriving DecidableEq, Repr

/-- `removeDirectory` (lines 22-33): `fs.rm` with `recursive` and `force`;
every error is caught inside the function, and logged only when its code is
not ENOENT. Returns the new directory state and whether an error was
logged; it never throws to the caller. -/
def removeDirectory (fs : DirState) (r : RmResult) : DirState × Bool :=
  match r with
  | RmResult.ok => (none, false)
  | RmResult.err code => (fs, code != "ENOENT")

/-- `fs.mkdir` with `recursive: true` (line 174): creates the directory
when absent, silently keeps an existing directory and its contents. -/
def mkdirRecursive (fs : DirState) : DirState :=
  match fs with
  | none => some []
  | some files => some files

/-- Environment of one whole run: the credential, the listing responses,
the initial output-directory state, how `fs.rm` behaves, whether
`fs.mkdir`, `puppeteer.launch` and the final `browser.close()` of the
`finally` block succeed, and each repository's navigation environment. -/
structure World where
  token : Option String
  api : ApiEnv
  fs0 : DirState
  rmResult : RmResult
  mkdirOk : Bool
  launchOk : Bool
  closeOk : Bool
  repoEnv : String → RepoEnv

/-- Observable outcome of `main`: the process exit code, the output
directory right after setup and at the end, the repository names for which
`processRepository` was invoked, the combined capture trace, and the
browser lifecycle. -/
structure MainResult where
  exitCode : Nat
  dirAfterSetup : DirState
  dirState : DirState
  processed : List String
  trace : Trace
  browserLaunched : Bool
  browserClosed : Bool

/-- The sequential `for` loop of lines 189-192: process each repository in
order with the shared browser, concatenating the traces. -/
def runLoop (w : World) : List String → Trace
  | [] => Trace.empty
  | n :: rest => (processRepository n (w.repoEnv n)).append (runLoop w rest)

/-- The `main` function (lines 160-205); named `mainRun` because Lean
reserves `main` for an entry point. With no repositories it returns before
touching the directory or the browser. Otherwise: remove and recreate the
output directory, launch the browser, process every repository, close the
browser in the `finally`. A throw of `fs.mkdir` or `puppeteer.launch`
reaches the catch at line 194, which calls `process.exit(1)` (so the
`finally` never runs on those paths). A rejection of `await
browser.close()` (line 200) is not covered by that catch: it escapes
`main`, whose promise at line 207 has no handler, and the unhandled
rejection terminates the process with a non-zero exit — after the loop's
work (traces, files) has already happened. -/
def mainRun (w : World) : MainResult :=
  let REPO_NAMES := fetchRepositoryNames w.token w.api
  if REPO_NAMES.isEmpty then
    { exitCode := 0, dirAfterSetup := w.fs0, dirState := w.fs0, processed := [],
      trace := Trace.empty, browserLaunched := false, browserClosed := false }
  else
    let fs1 := (removeDirectory w.fs0 w.rmResult).1
    if w.mkdirOk = false then
      { exitCode := 1, dirAfterSetup := fs1, dirState := fs1, processed := [],
        trace := Trace.empty, browserLaunched := false, browserClosed := false }
    else
      let fs2 := mkdirRecursive fs1
      if w.launchOk = false then
        { exitCode := 1, dirAfterSetup := fs2, dirState := fs2, processed := [],
          trace := Trace.empty, browserLaunched := false, browserClosed := false }
      else
        let t := runLoop w REPO_NAMES
        let finalFs : DirState :=
          match fs2 with
          | none => some t.files
          | some existing => some (existing ++ t.files)
        if w.closeOk = false then
          { exitCode := 1, dirAfterSetup := fs2, dirState := finalFs,
            processed := REPO_NAMES, trace := t,
            browserLaunched := true, browserClosed := false }
        else
          { exitCode := 0, dirAfterSetup := fs2, dirState := finalFs,
            processed := REPO_NAMES, trace := t,
            browserLaunched := true, browserClosed := true }

/-- The names one listing response contributes to the result: none for a
network failure, the filtered names otherwise. -/
def pageNames : Option ApiPage → List String
  | none => []
  | some resp => filterNames resp.records

/-- The request for page `1 + k` fails: it is beyond the environment or a
network failure (the fetch promise rejects), or it carries a non-ok
status (the `throw` of line 66). -/
def pageFailure (env : ApiEnv) (k : Nat) : Prop :=
  match env.get? k with
  | none => True
  | some none => True
  | some (some resp) => resp.ok = false

/-! ## Helper lemmas -/

theorem targetOrgLower : TARGET_ORG.toLower = "dapalms1" := by
  show String.map Char.toLower TARGET_ORG = "dapalms1"
  rw [String.map_eq]
  decide

theorem base_url_eq : GITHUB_PAGES_BASE_URL = "https://dapalms1.github.io/" := by
  unfold GITHUB_PAGES_BASE_URL
  rw [targetOrgLower]
  decide

theorem liveUrl_eq (repoName : String) :
    liveUrl repoName = "https://dapalms1.github.io/" ++ repoName ++ "/" := by
  unfold liveUrl
  rw [base_url_eq]

theorem mem_filterNames (x : String) (records : List RepoRecord) :
    x ∈ filterNames records ↔
      ∃ r, r ∈ records ∧ r.owner = TARGET_ORG ∧ r.name ≠ "Catalog_of_Repos" ∧
        r.name = x := by
  simp only [filterNames, List.mem_map, List.mem_filter, beq_iff_eq, bne_iff_ne]
  constructor
  · rintro ⟨r, ⟨⟨hr, how⟩, hnm⟩, hx⟩
    exact ⟨r, hr, how, hnm, hx⟩
  · rintro ⟨r, hr, how, hnm, hx⟩
    exact ⟨r, ⟨⟨hr, how⟩, hnm⟩, hx⟩

theorem excl_not_mem_filterNames (records : List RepoRecord) :
    "Catalog_of_Repos" ∉ filterNames records := by
  rw [mem_filterNames]
  rintro ⟨r, _, _, hnm, hx⟩
  exact hnm hx

theorem excl_not_mem_fetchGo (env : ApiEnv) :
    ∀ page : Nat, "Catalog_of_Repos" ∉ (fetchGo env page).names := by
  induction env with
  | nil => intro page; simp [fetchGo]
  | cons o rest ih =>
    intro page
    cases o with
    | none => simp [fetchGo]
    | some resp =>
      by_cases hok : resp.ok
      · by_cases hnext : linkHasNext resp.linkHeader
        · simp only [fetchGo, hok, hnext, if_true, List.mem_append]
          rintro (h | h)
          · exact excl_not_mem_filterNames resp.records h
          · exact ih (page + 1) h
        · simp only [fetchGo, hok, hnext, if_true, if_false]
          exact excl_not_mem_filterNames resp.records
      · simp [fetchGo, hok]

theorem fetchGo_requests_length_pos (env : ApiEnv) (page : Nat) :
    1 ≤ (fetchGo env page).requests.length := by
  cases env with
  | nil => simp [fetchGo]
  | cons o rest =>
    cases o with
    | none => simp [fetchGo]
    | some resp =>
      by_cases hok : resp.ok
      · by_cases hnext : linkHasNext resp.linkHeader
        · simp [fetchGo, hok, hnext]
        · simp [fetchGo, hok, hnext]
      · simp [fetchGo, hok]

theorem fetchGo_requests_consecutive (env : ApiEnv) :
    ∀ page : Nat,
      (fetchGo env page).requests = List.range' page ((fetchGo env page).requests.length) := by
  induction env with
  | nil => intro page; simp [fetchGo, List.range']
  | cons o rest ih =>
    intro page
    cases o with
    | none => simp [fetchGo, List.range']
    | some resp =>
      by_cases hok : resp.ok
      · by_cases hnext : linkHasNext resp.linkHeader
        · simp only [fetchGo, hok, hnext, if_true, List.length_cons, List.range'_succ]
          exact congrArg (page :: ·) (ih (page + 1))
        · simp [fetchGo, hok, hnext, List.range']
      · simp [fetchGo, hok, List.range']

theorem Trace.append_def (a b : Trace) :
    a.append b =
      ⟨a.pagesOpened + b.pagesOpened, a.pagesClosed + b.pagesClosed,
       a.viewports ++ b.viewports, a.navs ++ b.navs, a.waits ++ b.waits,
       a.shots ++ b.shots, a.files ++ b.files, a.warnLogs ++ b.warnLogs,
       a.errorLogs ++ b.errorLogs⟩ := rfl

theorem processRepository_files_shape (repoName : String) (env : RepoEnv) :
    (processRepository repoName env).files = [] ∨
      (processRepository repoName env).files = [repoName ++ ".png"] := by
  obtain ⟨g, shot⟩ := env
  cases g with
  | thrown => left; rfl
  | noResponse => left; rfl
  | resp status =>
    by_cases hok : respOk status
    · cases shot
      · left; simp [processRepository, processBody, navTrace, hok]
      · right; simp [processRepository, processBody, navTrace, hok]
    · left; simp [processRepository, processBody, navTrace, hok]

theorem runLoop_files_mem (w : World) (ns : List String) :
    ∀ f ∈ (runLoop w ns).files, ∃ n ∈ ns, f = n ++ ".png" := by
  induction ns with
  | nil => simp [runLoop, Trace.empty]
  | cons n rest ih =>
    intro f hf
    simp only [runLoop, Trace.append_def, List.mem_append] at hf
    rcases hf with hf | hf
    · rcases processRepository_files_shape n (w.repoEnv n) with h | h
      · rw [h] at hf; simp at hf
      · rw [h] at hf
        simp only [List.mem_singleton] at hf
        exact ⟨n, List.mem_cons_self n rest, hf⟩
    · obtain ⟨m, hm, hfm⟩ := ih f hf
      exact ⟨m, List.mem_cons_of_mem n hm, hfm⟩

theorem mainRun_processed_eq (w : World) (hmk : w.mkdirOk = true)
    (hL : w.launchOk = true) :
    (mainRun w).processed = fetchRepositoryNames w.token w.api ∧
      (w.closeOk = true → (mainRun w).exitCode = 0) := by
  rcases hn : fetchRepositoryNames w.token w.api with _ | ⟨a, l⟩
  · simp [mainRun, hn]
  · cases hcl : w.closeOk
    · simp [mainRun, hn, hmk, hL, hcl]
    · simp [mainRun, hn, hmk, hL, hcl]

theorem fetchGo_stops_at_failure :
    ∀ (k : Nat) (env : ApiEnv) (page : Nat),
      (∀ j, j < k → ∃ resp, env.get? j = some (some resp) ∧ resp.ok = true ∧
          linkHasNext resp.linkHeader = true) →
      pageFailure env k →
      fetchGo env page =
        ⟨((env.take k).map pageNames).flatten, List.range' page (k + 1), true⟩ := by
  intro k
  induction k with
  | zero =>
    intro env page _ hfail
    cases env with
    | nil => simp [fetchGo, List.range']
    | cons o rest =>
      cases o with
      | none => simp [fetchGo, List.range']
      | some resp =>
        have hok : resp.ok = false := hfail
        simp [fetchGo, hok, List.range']
  | succ k ih =>
    intro env page hchain hfail
    obtain ⟨resp, hget, hok, hnext⟩ := hchain 0 (Nat.succ_pos k)
    cases env with
    | nil => simp at hget
    | cons o rest =>
      have ho : o = some resp := by simpa using hget
      subst ho
      have hchain' : ∀ j, j < k → ∃ r, rest.get? j = some (some r) ∧ r.ok = true ∧
          linkHasNext r.linkHeader = true := by
        intro j hj
        exact hchain (j + 1) (Nat.succ_lt_succ hj)
      have hfail' : pageFailure rest k := hfail
      have hrec := ih rest (page + 1) hchain' hfail'
      simp only [fetchGo, hok, hnext, if_true, hrec, List.take_succ_cons, List.map_cons,
        List.flatten_cons, pageNames, List.range'_succ]

/-! ## Claims -/

/-- C1 (counterexample): the claim that the page context is closed before
`processRepository` returns on every exit path is false: when `page.goto`
throws (navigation error or timeout), the `catch` block of lines 152-154
only logs and never closes the page, so the opened page context stays
open. -/
theorem processRepository_thrown_leaves_page_open :
    ¬ ((processRepository "A" ⟨GotoResult.thrown, true⟩).pagesClosed =
        (processRepository "A" ⟨GotoResult.thrown, true⟩).pagesOpened) := by
  decide

/-- C1 (amended): the page context is closed before return on the success
path and on the post-navigation validation-failure path, and exactly on
those: on any path where an exception is thrown after the page is created
(navigation error, timeout, screenshot or filesystem error — the paths
that reach the `catch` and log a FATAL ERROR), the page is left open. -/
theorem processRepository_closes_iff_no_throw (repoName : String) (env : RepoEnv) :
    ((processRepository repoName env).pagesClosed =
        (processRepository repoName env).pagesOpened) ↔
      (processRepository repoName env).errorLogs = [] := by
  obtain ⟨g, shot⟩ := env
  cases g with
  | thrown => simp [processRepository, processBody, navTrace]
  | noResponse => simp [processRepository, processBody, navTrace]
  | resp status =>
    by_cases hok : respOk status
    · cases shot
      · simp [processRepository, processBody, navTrace, hok]
      · simp [processRepository, processBody, navTrace, hok]
    · simp [processRepository, processBody, navTrace, hok]

/-- C4: a record's name is in the filtered result exactly when its owner is
(case-sensitively) `DapaLMS1` and its name is not `Catalog_of_Repos`
(stated for result sets with unique names, as the listing produces); and
`Catalog_of_Repos` never appears in the names returned by
`fetchRepositoryNames`, whatever the endpoint returns. -/
theorem filter_owner_and_exclusion :
    (∀ (records : List RepoRecord) (r : RepoRecord),
        r ∈ records → (records.map RepoRecord.name).Nodup →
        (r.name ∈ filterNames records ↔
          (r.owner = TARGET_ORG ∧ r.name ≠ "Catalog_of_Repos"))) ∧
    ∀ (token : Option String) (env : ApiEnv),
      "Catalog_of_Repos" ∉ fetchRepositoryNames token env := by
  constructor
  · intro records r hr hnd
    constructor
    · intro hmem
      rw [mem_filterNames] at hmem
      obtain ⟨s, hs, how, hnm, hname⟩ := hmem
      have hsr : s = r := List.inj_on_of_nodup_map hnd hs hr hname
      subst hsr
      exact ⟨how, hnm⟩
    · rintro ⟨how, hnm⟩
      rw [mem_filterNames]
      exact ⟨r, hr, how, hnm, rfl⟩
  · intro token env
    unfold fetchRepositoryNames fetchResult
    by_cases ht : tokenPresent token
    · simpa [ht] using excl_not_mem_fetchGo env 1
    · simp [ht]

/-- C4 (witness): a concrete record owned by the target with a distinct
name passes the filter. -/
theorem filter_owner_and_exclusion_witness :
    "Demo" ∈ filterNames [⟨"DapaLMS1", "Demo"⟩] :=
  (filter_owner_and_exclusion.1 [⟨"DapaLMS1", "Demo"⟩] ⟨"DapaLMS1", "Demo"⟩
      (by simp) (by simp)).2 ⟨rfl, by decide⟩

/-- C5: with the credential variable absent, `fetchRepositoryNames` logs a
fatal condition and returns the empty sequence, no listing request is
issued, and `main` exits cleanly without navigating, without touching the
output directory and without launching the browser. -/
theorem missing_token_clean_exit (w : World) (h : w.token = none) :
    fetchRepositoryNames w.token w.api = [] ∧
    (fetchResult w.token w.api).fatalLogged = true ∧
    requestedPages w.token w.api = [] ∧
    (mainRun w).processed = [] ∧
    (mainRun w).trace.navs = [] ∧
    (mainRun w).dirAfterSetup = w.fs0 ∧
    (mainRun w).dirState = w.fs0 ∧
    (mainRun w).exitCode = 0 ∧
    (mainRun w).browserLaunched = false := by
  have hf : fetchResult w.token w.api = ⟨[], [], true, false⟩ := by
    rw [h]; rfl
  have hnames : fetchRepositoryNames w.token w.api = [] := by
    unfold fetchRepositoryNames; rw [hf]
  refine ⟨hnames, by rw [hf], by unfold requestedPages; rw [hf], ?_⟩
  simp [mainRun, hnames, Trace.empty]

/-- Concrete run environment with no credential but a populated API and a
stale file in the output directory. -/
def wNoToken : World :=
  ⟨none, [some ⟨200, [⟨"DapaLMS1", "A"⟩], none⟩], some ["stale.png"],
    RmResult.ok, true, true, true, fun _ => ⟨GotoResult.resp 200, true⟩⟩

/-- C5 (witness): in that concrete environment the run exits 0 and the
stale output directory is untouched. -/
theorem missing_token_clean_exit_witness :
    (mainRun wNoToken).exitCode = 0 ∧ (mainRun wNoToken).dirState = some ["stale.png"] :=
  ⟨(missing_token_clean_exit wNoToken rfl).2.2.2.2.2.2.2.1,
   (missing_token_clean_exit wNoToken rfl).2.2.2.2.2.2.1⟩

/-- C6: requests go to the pages endpoint with page size 100, start at page
1 and are consecutive; after an ok response the loop continues exactly when
the link header carries the next marker; and a run whose first response
lacks the marker issues exactly one request. -/
theorem pagination_request_shape :
    (∀ (env : ApiEnv) (page : Nat),
        (fetchGo env page).requests =
          List.range' page ((fetchGo env page).requests.length)) ∧
    (pageUrl 1 = "https://api.github.com/user/repos?per_page=100&page=1") ∧
    (∀ (resp : ApiPage) (rest : ApiEnv) (page : Nat), resp.ok = true →
        (2 ≤ (fetchGo (some resp :: rest) page).requests.length ↔
          linkHasNext resp.linkHeader = true)) ∧
    (∀ (token : Option String) (resp : ApiPage) (rest : ApiEnv),
        tokenPresent token = true →
        linkHasNext resp.linkHeader = false →
        requestedPages token (some resp :: rest) = [1]) := by
  refine ⟨fetchGo_requests_consecutive, by decide, ?_, ?_⟩
  · intro resp rest page hok
    by_cases hnext : linkHasNext resp.linkHeader
    · simp only [fetchGo, hok, hnext, if_true, List.length_cons, hnext, iff_true]
      have := fetchGo_requests_length_pos rest (page + 1)
      omega
    · simp only [fetchGo, hok, hnext, if_true, if_false]
      simp [hnext]
  · intro token resp rest htok hnext
    unfold requestedPages fetchResult
    by_cases hok : resp.ok
    · simp [htok, fetchGo, hok, hnext]
    · simp [htok, fetchGo, hok]

/-- C6 (witness): a single ok response with no link header gives exactly
the one request for page 1. -/
theorem pagination_request_shape_witness :
    requestedPages (some "tok") [some ⟨200, [], none⟩] = [1] :=
  pagination_request_shape.2.2.2 (some "tok") ⟨200, [], none⟩ [] (by decide) rfl

/-- C7: if every request up to page `k` succeeds with a next marker and the
request for page `1 + k` fails (network error or non-ok status), pagination
stops there with no retry: the ERROR message of line 87 is logged, the
result is exactly the filtered names of the `k` successful pages, and pages
`1` through `1 + k` are the only requests issued. -/
theorem listing_error_partial_results (token : Option String) (env : ApiEnv) (k : Nat)
    (htok : tokenPresent token = true)
    (hchain : ∀ j, j < k → ∃ resp, env.get? j = some (some resp) ∧ resp.ok = true ∧
        linkHasNext resp.linkHeader = true)
    (hfail : pageFailure env k) :
    fetchRepositoryNames token env = ((env.take k).map pageNames).flatten ∧
    requestedPages token env = List.range' 1 (k + 1) ∧
    (fetchResult token env).listingErrorLogged = true := by
  have h := fetchGo_stops_at_failure k env 1 hchain hfail
  unfold fetchRepositoryNames requestedPages fetchResult
  simp [htok, h]

/-- C7 (witness): a first request that fails at the network level yields an
empty result after exactly one request, with the listing error logged. -/
theorem listing_error_partial_results_witness :
    fetchRepositoryNames (some "tok2") [] = [] ∧
    requestedPages (some "tok2") [] = List.range' 1 1 ∧
    (fetchResult (some "tok2") []).listingErrorLogged = true :=
  listing_error_partial_results (some "tok2") [] 0 (by decide)
    (fun j hj => absurd hj (Nat.not_lt_zero j)) (by simp [pageFailure])

/-- C2: on a run with work to do, when the recursive removal and the
directory creation succeed, the output directory is exactly the fresh empty
directory before any capture, and at the end it holds exactly the files
this run wrote — each named `<repository-name>.png` for a listed repository
— with no leftovers from any prior state. -/
theorem output_dir_recreated (w : World)
    (hn : fetchRepositoryNames w.token w.api ≠ [])
    (hrm : w.rmResult = RmResult.ok)
    (hmk : w.mkdirOk = true) :
    (mainRun w).dirAfterSetup = some [] ∧
    (mainRun w).dirState = some ((mainRun w).trace.files) ∧
    ∀ f ∈ (mainRun w).trace.files,
      ∃ n ∈ fetchRepositoryNames w.token w.api, f = n ++ ".png" := by
  rcases hN : fetchRepositoryNames w.token w.api with _ | ⟨a, l⟩
  · exact absurd hN hn
  · by_cases hL : w.launchOk = false
    · simp [mainRun, hN, hmk, hL, hrm, removeDirectory, mkdirRecursive, Trace.empty]
    · have hL' : w.launchOk = true := by
        cases h : w.launchOk
        · exact absurd h hL
        · rfl
      refine ⟨?_, ?_, ?_⟩
      · cases hcl : w.closeOk <;>
          simp [mainRun, hN, hmk, hL', hrm, hcl, removeDirectory, mkdirRecursive]
      · cases hcl : w.closeOk <;>
          simp [mainRun, hN, hmk, hL', hrm, hcl, removeDirectory, mkdirRecursive]
      · intro f hf
        rw [← hN]
        apply runLoop_files_mem w (fetchRepositoryNames w.token w.api) f
        have : (mainRun w).trace = runLoop w (a :: l) := by
          cases hcl : w.closeOk <;>
            simp [mainRun, hN, hmk, hL', hrm, hcl, removeDirectory, mkdirRecursive]
        rw [this] at hf
        rw [hN]
        exact hf

/-- Concrete run environment: a valid credential, one API page listing two
repositories, a stale output directory, and environments in which B's
navigation returns 404 while A fully succeeds. -/
def wTwoRepos : World :=
  ⟨some "tok3", [some ⟨200, [⟨"DapaLMS1", "A"⟩, ⟨"DapaLMS1", "B"⟩], none⟩],
    some ["stale.png"], RmResult.ok, true, true, true,
    fun n => if n = "A" then ⟨GotoResult.resp 200, true⟩ else ⟨GotoResult.resp 404, true⟩⟩

/-- C2 (witness): in that concrete environment the directory is fresh after
setup and ends with exactly this run's capture of A. -/
theorem output_dir_recreated_witness :
    (mainRun wTwoRepos).dirAfterSetup = some [] ∧
    (mainRun wTwoRepos).dirState = some ((mainRun wTwoRepos).trace.files) :=
  ⟨(output_dir_recreated wTwoRepos (by decide) rfl rfl).1,
   (output_dir_recreated wTwoRepos (by decide) rfl rfl).2.1⟩

/-- C3: when setup succeeds, every listed repository is processed in order
no matter how each one's navigation or capture behaves — a throwing
repository is logged under its name, writes no file, and does not stop the
run — and (whenever the teardown close also succeeds, teardown not being a
per-repository failure) the run still exits 0. -/
theorem per_repo_failures_isolated (w : World)
    (hmk : w.mkdirOk = true) (hL : w.launchOk = true) :
    (mainRun w).processed = fetchRepositoryNames w.token w.api ∧
    (w.closeOk = true → (mainRun w).exitCode = 0) ∧
    ∀ repoName : String, throwsDuring (w.repoEnv repoName) = true →
      (processRepository repoName (w.repoEnv repoName)).errorLogs = [repoName] ∧
      (processRepository repoName (w.repoEnv repoName)).files = [] := by
  obtain ⟨hproc, hexit⟩ := mainRun_processed_eq w hmk hL
  refine ⟨hproc, hexit, ?_⟩
  intro repoName hthrow
  rcases henv : w.repoEnv repoName with ⟨g, shot⟩
  rw [henv] at hthrow
  cases g with
  | thrown => simp [processRepository, processBody, navTrace]
  | noResponse => simp [throwsDuring] at hthrow
  | resp status =>
    simp only [throwsDuring, Bool.and_eq_true, Bool.not_eq_true'] at hthrow
    obtain ⟨hok, hshot⟩ := hthrow
    subst hshot
    simp [processRepository, processBody, navTrace, hok]

/-- Concrete run environment in which the first repository's navigation
throws (e.g. exceeds the 60-second timeout) and the second succeeds. -/
def wFirstThrows : World :=
  ⟨some "tok4", [some ⟨200, [⟨"DapaLMS1", "A"⟩, ⟨"DapaLMS1", "B"⟩], none⟩],
    none, RmResult.ok, true, true, true,
    fun n => if n = "A" then ⟨GotoResult.thrown, true⟩ else ⟨GotoResult.resp 200, true⟩⟩

/-- C3 (witness): with the first repository throwing, both repositories are
still processed, the run exits 0, and the failure is logged under the
repository's name with no file written. -/
theorem per_repo_failures_isolated_witness :
    (mainRun wFirstThrows).processed = fetchRepositoryNames wFirstThrows.token wFirstThrows.api ∧
    (mainRun wFirstThrows).exitCode = 0 ∧
    (processRepository "A" (wFirstThrows.repoEnv "A")).errorLogs = ["A"] :=
  ⟨(per_repo_failures_isolated wFirstThrows rfl rfl).1,
   (per_repo_failures_isolated wFirstThrows rfl rfl).2.1 rfl,
   ((per_repo_failures_isolated wFirstThrows rfl rfl).2.2 "A" (by decide)).1⟩

/-- C8: when navigation yields no response or a non-successful status, a
warning naming the URL is logged, no screenshot call is made, no
`<name>.png` file is written, the page context is closed, no error path is
taken; and with working setup every listed name is still processed. -/
theorem bad_response_skips_screenshot :
    (∀ (repoName : String) (env : RepoEnv), badNav env →
        (processRepository repoName env).warnLogs = [liveUrl repoName] ∧
        (processRepository repoName env).shots = [] ∧
        (processRepository repoName env).files = [] ∧
        (processRepository repoName env).pagesClosed = 1 ∧
        (processRepository repoName env).errorLogs = []) ∧
    ∀ (w : World), w.mkdirOk = true → w.launchOk = true →
      (mainRun w).processed = fetchRepositoryNames w.token w.api := by
  constructor
  · intro repoName env hbad
    obtain ⟨g, shot⟩ := env
    rcases hbad with hg | ⟨status, hg, hstatus⟩
    · cases hg
      simp [processRepository, processBody, navTrace]
    · cases hg
      simp [processRepository, processBody, navTrace, hstatus]
  · intro w hmk hL
    exact (mainRun_processed_eq w hmk hL).1

/-- C8 (witness): a 404 response leaves no file and no screenshot call. -/
theorem bad_response_skips_screenshot_witness :
    (processRepository "Missing" ⟨GotoResult.resp 404, true⟩).files = [] ∧
    (processRepository "Missing" ⟨GotoResult.resp 404, true⟩).shots = [] :=
  ⟨(bad_response_skips_screenshot.1 "Missing" ⟨GotoResult.resp 404, true⟩
      (Or.inr ⟨404, rfl, by decide⟩)).2.2.1,
   (bad_response_skips_screenshot.1 "Missing" ⟨GotoResult.resp 404, true⟩
      (Or.inr ⟨404, rfl, by decide⟩)).2.1⟩

/-- C9: every capture sets the viewport to 1200 by 800 and navigates to the
URL built from the lowercased owner host, the repository name and a
trailing slash — while the listing filter compares the owner identity
without lowercasing, so a record owned by the lowercased spelling is
excluded; on a successful response it waits the fixed 3000 ms and issues a
screenshot clipped to the rectangle at origin 0,0 of width 1200 and height
800, targeted at `<output-dir>/<repository-name>.png`, which on success
writes that file. -/
theorem capture_parameters (repoName : String) (env : RepoEnv) :
    liveUrl repoName = "https://dapalms1.github.io/" ++ repoName ++ "/" ∧
    (processRepository repoName env).viewports = [(1200, 800)] ∧
    (processRepository repoName env).navs = [liveUrl repoName] ∧
    TARGET_ORG = "DapaLMS1" ∧
    (∀ n : String, filterNames [⟨TARGET_ORG.toLower, n⟩] = []) ∧
    ∀ status : Nat, env.goto = GotoResult.resp status → respOk status = true →
      (processRepository repoName env).waits = [3000] ∧
      (processRepository repoName env).shots =
        [⟨OUTPUT_DIR ++ "/" ++ repoName ++ ".png", ⟨0, 0, 1200, 800⟩⟩] ∧
      (env.screenshotOk = true →
        (processRepository repoName env).files = [repoName ++ ".png"]) := by
  have hvn : (processRepository repoName env).viewports = [(1200, 800)] ∧
      (processRepository repoName env).navs = [liveUrl repoName] := by
    obtain ⟨g, shot⟩ := env
    cases g with
    | thrown => simp [processRepository, processBody, navTrace, THUMBNAIL_WIDTH, THUMBNAIL_HEIGHT]
    | noResponse => simp [processRepository, processBody, navTrace, THUMBNAIL_WIDTH, THUMBNAIL_HEIGHT]
    | resp status =>
      by_cases hok : respOk status
      · cases shot
        · simp [processRepository, processBody, navTrace, hok, THUMBNAIL_WIDTH, THUMBNAIL_HEIGHT]
        · simp [processRepository, processBody, navTrace, hok, THUMBNAIL_WIDTH, THUMBNAIL_HEIGHT]
      · simp [processRepository, processBody, navTrace, hok, THUMBNAIL_WIDTH, THUMBNAIL_HEIGHT]
  refine ⟨liveUrl_eq repoName, hvn.1, hvn.2, rfl, ?_, ?_⟩
  · intro n
    rw [targetOrgLower]
    simp [filterNames, List.filter]
  · intro status hg hok
    obtain ⟨g, shot⟩ := env
    simp only at hg
    cases hg
    cases shot
    · simp [processRepository, processBody, navTrace, hok, outputPath,
        THUMBNAIL_WIDTH, THUMBNAIL_HEIGHT, SCREENSHOT_DELAY_MS]
    · simp [processRepository, processBody, navTrace, hok, outputPath,
        THUMBNAIL_WIDTH, THUMBNAIL_HEIGHT, SCREENSHOT_DELAY_MS]

/-- C9 (witness): a successful 200 capture waits 3000 ms, clips to the
viewport rectangle and writes the file. -/
theorem capture_parameters_witness :
    (processRepository "Demo" ⟨GotoResult.resp 200, true⟩).waits = [3000] ∧
    (processRepository "Demo" ⟨GotoResult.resp 200, true⟩).files = ["Demo" ++ ".png"] :=
  ⟨((capture_parameters "Demo" ⟨GotoResult.resp 200, true⟩).2.2.2.2.2 200 rfl
      (by decide)).1,
   ((capture_parameters "Demo" ⟨GotoResult.resp 200, true⟩).2.2.2.2.2 200 rfl
      (by decide)).2.2 rfl⟩

/-- C10: `removeDirectory` never rejects — a removal failure leaves the
directory as it was and is at most logged (and not even logged for a
missing directory, code ENOENT), while a successful removal logs no error;
and the process exit code is 0 exactly when there was no work or
`fs.mkdir`, `puppeteer.launch` and the final `browser.close()` all
succeeded. The three failures are exactly the exceptions that escape the
top-level setup/teardown block: mkdir and launch reach the catch of line
194 (`process.exit(1)`), and a close rejection in the `finally` bypasses
that catch and terminates the process non-zero as an unhandled rejection.
So a failed removal by itself never causes a non-zero exit, and
all-skipped runs still exit 0. -/
theorem removal_never_rejects_exit_codes (w : World) :
    ((mainRun w).exitCode = 0 ↔
      (fetchRepositoryNames w.token w.api = [] ∨
        (w.mkdirOk = true ∧ w.launchOk = true ∧ w.closeOk = true))) ∧
    (∀ (fs : DirState) (code : String),
        removeDirectory fs (RmResult.err code) = (fs, code != "ENOENT")) ∧
    (∀ fs : DirState, removeDirectory fs RmResult.ok = (none, false)) := by
  refine ⟨?_, fun fs code => rfl, fun fs => rfl⟩
  rcases hN : fetchRepositoryNames w.token w.api with _ | ⟨a, l⟩
  · simp [mainRun, hN]
  · cases hmk : w.mkdirOk
    · simp [mainRun, hN, hmk]
    · cases hL : w.launchOk
      · simp [mainRun, hN, hmk, hL]
      · cases hcl : w.closeOk
        · simp [mainRun, hN, hmk, hL, hcl]
        · simp [mainRun, hN, hmk, hL, hcl]

/-- C1 (amended, witness): on a concrete success path the page context is
closed. -/
theorem processRepository_closes_iff_no_throw_witness :
    (processRepository "B" ⟨GotoResult.resp 200, true⟩).pagesClosed =
      (processRepository "B" ⟨GotoResult.resp 200, true⟩).pagesOpened :=
  (processRepository_closes_iff_no_throw "B" ⟨GotoResult.resp 200, true⟩).mpr (by decide)

/-- C10 (witness): a concrete run whose mkdir, launch and close all
succeed exits 0. -/
theorem removal_never_rejects_exit_codes_witness :
    (mainRun wTwoRepos).exitCode = 0 :=
  (removal_never_rejects_exit_codes wTwoRepos).1.mpr (Or.inr ⟨rfl, rfl, rfl⟩)
